import Mathlib

/-!
Shallow embedding of the parks trip planner (src/main.py): data model,
clustering engine, trip categorizer and report aggregator, with theorems
checking the natural-language specification against the code.

Python dictionaries are modelled as association lists in insertion order
(Python dicts preserve insertion order); machine floats used only for the
distance computation are abstracted by passing the distance function as a
parameter, since every property checked here either holds for all distance
functions or hypothesises the distances between the concrete points involved.
-/

/-- Value stored for a park in the parks mapping: the marker `"Y"` (park still
to be geocoded), a resolved coordinate record `{lat, lng}`, or the failure
record `{lat: null, lng: null, error}`. -/
inductive ParkValue where
  | pending : ParkValue
  | coord (lat lng : ℚ) : ParkValue
  | geoFail (msg : String) : ParkValue
deriving DecidableEq, Repr

/-- The test `isinstance(coords, dict) and coords.get("lat") is not None`
used at src/main.py:112 and :173. -/
def hasCoord : ParkValue → Bool
  | .coord _ _ => true
  | _ => false

/-- A cached drive-time record.  The Python dict holds either the four data
fields or a single error field; optional fields model `dict.get`. -/
structure DriveInfo where
  duration_seconds : Option Int
  duration_text : Option String
  distance_meters : Option Int
  distance_text : Option String
  error : Option String
deriving DecidableEq, Repr

/-- The empty dict `{}` returned by `drive_times.get(park_name, {})`. -/
def emptyInfo : DriveInfo := ⟨none, none, none, none, none⟩

/-- The lookup `drive_times.get(park_name, {})`. -/
def infoFor (dts : List (String × DriveInfo)) (n : String) : DriveInfo :=
  (dts.lookup n).getD emptyInfo

/-- The home address constant `MY_ADDRESS` of src/main.py. -/
def MY_ADDRESS : String := "Santa Cruz, CA"

/-- The clustering threshold constant `CLUSTER_THRESHOLD_MILES`. -/
def CLUSTER_THRESHOLD_MILES : ℚ := 30

/-- The filtered list `valid_parks` built at src/main.py:170-174: parks whose
value is a coordinate record with a non-null latitude. -/
def valid_parks (parks : List (String × ParkValue)) : List (String × ℚ × ℚ) :=
  parks.filterMap (fun p =>
    match p.2 with
    | .coord la ln => some (p.1, la, ln)
    | _ => none)

/-- Inner loop of `cluster_parks` (src/main.py:188-198): scan the whole
valid-park list and append every not-yet-assigned park whose distance to the
seed is within the threshold, marking it assigned at once.  Returns the
appended members together with the final assigned set (kept as a list).
`dist` abstracts `haversine_distance (lat1 lng1 lat2 lng2)`. -/
def scanCluster (dist : ℚ → ℚ → ℚ → ℚ → ℚ) (t : ℚ) (seed : ℚ × ℚ) :
    List (String × ℚ × ℚ) → List String → List String × List String
  | [], assigned => ([], assigned)
  | (n, c) :: rest, assigned =>
    if n ∈ assigned then scanCluster dist t seed rest assigned
    else if dist seed.1 seed.2 c.1 c.2 ≤ t then
      let r := scanCluster dist t seed rest (n :: assigned)
      (n :: r.1, r.2)
    else scanCluster dist t seed rest assigned

/-- Outer loop of `cluster_parks` (src/main.py:179-200): open a new cluster
seeded by each not-yet-assigned park, in input order. -/
def outerCluster (dist : ℚ → ℚ → ℚ → ℚ → ℚ) (t : ℚ) (allv : List (String × ℚ × ℚ)) :
    List (String × ℚ × ℚ) → List String → List (List String)
  | [], _ => []
  | (n, c) :: rest, assigned =>
    if n ∈ assigned then outerCluster dist t allv rest assigned
    else
      let r := scanCluster dist t c allv (n :: assigned)
      (n :: r.1) :: outerCluster dist t allv rest r.2

/-- The clustering engine `cluster_parks` (src/main.py:168-202). -/
def cluster_parks (dist : ℚ → ℚ → ℚ → ℚ → ℚ) (parks : List (String × ParkValue))
    (t : ℚ) : List (List String) :=
  outerCluster dist t (valid_parks parks) (valid_parks parks) []

/-- The trip categorizer `categorize_trip` (src/main.py:288-298); the float
division `duration_seconds / 3600` is carried out in ℚ, which agrees with the
double computation on every integer input (no integer is close enough to a
boundary multiple of 3600 for rounding to flip a comparison). -/
def categorize_trip : Option Int → String
  | none => "Unknown"
  | some d =>
    if (d : ℚ) / 3600 < 3 then "Day Trip"
    else if (d : ℚ) / 3600 < 5 then "Weekend Trip"
    else "Multi-day Trip"

/-- Substring test: Python's `sub in s` on strings. -/
def strContains (s sub : String) : Bool := decide (sub.data <:+: s.data)

/-- The park-type bucketing `get_park_type` (src/main.py:205-216). -/
def get_park_type (park_name : String) : String :=
  if strContains park_name "SHP" then "historical"
  else if strContains park_name "SB" then "beach"
  else if strContains park_name "SRA" then "recreation"
  else if strContains park_name "SNR" then "reserve"
  else "park"

/-- Sort key used at src/main.py:309: `info.get("duration_seconds", float("inf"))`;
a missing duration becomes the top element. -/
def sortKeyOf (i : DriveInfo) : WithTop Int :=
  match i.duration_seconds with
  | some d => (d : WithTop Int)
  | none => ⊤

/-- The tuples `(park_name, duration, info)` built at src/main.py:306-310, in
the iteration order of the parks mapping. -/
def parkTuples (parks : List (String × ParkValue)) (dts : List (String × DriveInfo)) :
    List (String × WithTop Int × DriveInfo) :=
  parks.map (fun p => (p.1, sortKeyOf (infoFor dts p.1), infoFor dts p.1))

/-- Comparison on the sort key, `lambda x: x[1]` at src/main.py:312. -/
def durLE (x y : String × WithTop Int × DriveInfo) : Prop := x.2.1 ≤ y.2.1

instance : DecidableRel durLE :=
  fun x y => inferInstanceAs (Decidable (x.2.1 ≤ y.2.1))

instance : IsTotal (String × WithTop Int × DriveInfo) durLE :=
  ⟨fun x y => le_total x.2.1 y.2.1⟩

instance : IsTrans (String × WithTop Int × DriveInfo) durLE :=
  ⟨fun _ _ _ h₁ h₂ => le_trans h₁ h₂⟩

/-- `sorted_parks.sort(key=lambda x: x[1])` (src/main.py:312).  Python's
`list.sort` is stable; it is modelled by insertion sort, which computes the
unique stable sorted permutation. -/
def sorted_parks (parks : List (String × ParkValue)) (dts : List (String × DriveInfo)) :
    List (String × WithTop Int × DriveInfo) :=
  List.insertionSort durLE (parkTuples parks dts)

/-- The fixed category order of src/main.py:315 and :334. -/
def catNames : List String := ["Day Trip", "Weekend Trip", "Multi-day Trip", "Unknown"]

/-- The categories receiving a detailed section (src/main.py:341). -/
def detailCats : List String := ["Day Trip", "Weekend Trip", "Multi-day Trip"]

/-- The per-category lists built by the loop at src/main.py:317-319: appending
in sorted order is the same as filtering the sorted list for each category. -/
def categoryMembers (sorted : List (String × WithTop Int × DriveInfo)) (c : String) :
    List (String × DriveInfo) :=
  (sorted.filter (fun x => decide (categorize_trip x.2.2.duration_seconds = c))).map
    (fun x => (x.1, x.2.2))

/-- The banner line `"=" * 60`. -/
def eq60 : String := String.mk (List.replicate 60 '=')

/-- The separator line `"-" * 60`. -/
def dash60 : String := String.mk (List.replicate 60 '-')

/-- One summary line (src/main.py:337). -/
def summaryLine (c : String) (n : Nat) : String :=
  "  " ++ c ++ ": " ++ toString n ++ " parks"

/-- The summary loop of src/main.py:334-337: fixed category order, categories
with zero members skipped. -/
def summarySection (cats : String → List (String × DriveInfo)) : List String :=
  catNames.filterMap (fun c =>
    if (cats c).length > 0 then some (summaryLine c (cats c).length) else none)

/-- ASCII uppercasing of one character, as `str.upper` acts on the ASCII
category names. -/
def upChar (c : Char) : Char :=
  if 'a' ≤ c ∧ c ≤ 'z' then Char.ofNat (c.toNat - 32) else c

/-- `category.upper()` for the ASCII category names (src/main.py:346). -/
def strUpper (s : String) : String := String.mk (s.data.map upChar)

/-- The two lines printed for one park entry (src/main.py:349-353). -/
def entryLines (x : String × DriveInfo) : List String :=
  ["  " ++ x.1,
   "    Drive: " ++ x.2.duration_text.getD "N/A" ++ " | Distance: " ++
     x.2.distance_text.getD "N/A"]

/-- The detailed-listing loop of src/main.py:341-354: one section per
non-empty category among the three non-Unknown categories. -/
def detailSection (cats : String → List (String × DriveInfo)) : List String :=
  detailCats.flatMap (fun c =>
    if (cats c).isEmpty then []
    else [dash60, strUpper c ++ "S (sorted by drive time)", dash60] ++
      (cats c).flatMap entryLines ++ [""])

/-- The cluster predicate of src/main.py:357-362: more than one member and
some member categorized Multi-day Trip from its cached duration. -/
def isMultiDayCluster (dts : List (String × DriveInfo)) (c : List String) : Bool :=
  decide (1 < c.length) &&
    c.any (fun p => decide (categorize_trip (infoFor dts p).duration_seconds = "Multi-day Trip"))

/-- The filtered list `multi_day_clusters` (src/main.py:357-362). -/
def multi_day_clusters (dts : List (String × DriveInfo)) (clusters : List (List String)) :
    List (List String) :=
  clusters.filter (isMultiDayCluster dts)

/-- The lines printed for the cluster numbered `i` (src/main.py:370-375). -/
def clusterLines (dts : List (String × DriveInfo)) (i : Nat) (c : List String) :
    List String :=
  ("\n  Cluster " ++ toString i ++ ": (" ++ toString c.length ++ " parks)") ::
    c.map (fun p => "    - " ++ p ++ " (" ++ (infoFor dts p).duration_text.getD "N/A" ++ ")")

/-- The suggested-clusters section of src/main.py:364-375, numbering the
multi-day clusters from 1 in original order. -/
def clusterSection (dts : List (String × DriveInfo)) (clusters : List (List String)) :
    List String :=
  if (multi_day_clusters dts clusters).isEmpty then []
  else [dash60, "SUGGESTED MULTI-DAY TRIP CLUSTERS",
        "(Parks within 30 miles of each other)", dash60] ++
    (List.enumFrom 1 (multi_day_clusters dts clusters)).flatMap
      (fun p => clusterLines dts p.1 p.2)

/-- The report aggregator `generate_report` (src/main.py:301-390), returning
the list of lines later joined with newlines and written to the report file. -/
def generate_report (parks : List (String × ParkValue)) (dts : List (String × DriveInfo))
    (clusters : List (List String)) : List String :=
  let cats := categoryMembers (sorted_parks parks dts)
  [eq60, "CALIFORNIA STATE PARKS TRIP PLANNER", eq60,
   "\nStarting from: " ++ MY_ADDRESS,
   "Total parks: " ++ toString parks.length, "",
   dash60, "SUMMARY BY TRIP TYPE", dash60] ++
  summarySection cats ++ [""] ++
  detailSection cats ++
  clusterSection dts clusters ++
  ["", eq60, "Map available at: output/parks_map.html", eq60]

/-- Outcome of one geocoding call: a best-match location list that is either
non-empty or empty, or an exception from the network client. -/
inductive GeoResult where
  | found (lat lng : ℚ) : GeoResult
  | notFound : GeoResult
  | exn (msg : String) : GeoResult
deriving DecidableEq, Repr

/-- `geocode_parks` (src/main.py:57-87): parks marked `"Y"` are geocoded; a
missing result or an exception is recorded as a data-level failure record and
the loop continues (file saving is outside the model). -/
def geocode_parks (g : String → GeoResult) (parks : List (String × ParkValue)) :
    List (String × ParkValue) :=
  parks.map (fun p =>
    if p.2 = .pending then
      (p.1, match g p.1 with
        | .found la ln => ParkValue.coord la ln
        | .notFound => ParkValue.geoFail "Not found"
        | .exn m => ParkValue.geoFail m)
    else p)

/-- `geocode_home` (src/main.py:90-98): returns the first result, raising
`ValueError` exactly when the result list is empty. -/
def geocode_home (res : List (ℚ × ℚ)) : Except String (ℚ × ℚ) :=
  match res with
  | l :: _ => .ok l
  | [] => .error ("Could not geocode home address: " ++ MY_ADDRESS)

/-- Outcome of one distance-matrix call: an OK element with duration and
distance, a non-OK status, or an exception. -/
inductive DMResult where
  | ok (durS : Int) (durT : String) (distM : Int) (distT : String) : DMResult
  | notOK : DMResult
  | exn (msg : String) : DMResult
deriving DecidableEq, Repr

/-- `get_drive_times` (src/main.py:101-151): starting from the loaded cache,
walk the parks in order; skip parks already cached and parks without a valid
coordinate; otherwise store the provider's answer (data or an error marker)
under the park's name. -/
def get_drive_times (dm : String → DMResult) (dts0 : List (String × DriveInfo))
    (parks : List (String × ParkValue)) : List (String × DriveInfo) :=
  parks.foldl (fun dts p =>
    if (dts.lookup p.1).isSome then dts
    else if hasCoord p.2 = false then dts
    else dts ++ [(p.1,
      match dm p.1 with
      | .ok ds dt dsm dst => ⟨some ds, some dt, some dsm, some dst, none⟩
      | .notOK => ⟨none, none, none, none, some "Route not found"⟩
      | .exn m => ⟨none, none, none, none, some m⟩)]) dts0

/-- The run skeleton of `main` (src/main.py:393-434) after configuration
checks: geocode parks, geocode home (aborting the whole run on failure, before
any output is produced), fetch drive times, cluster, and generate the report
lines.  The three collaborators are passed as pure oracles. -/
def main_run (dist : ℚ → ℚ → ℚ → ℚ → ℚ) (g : String → GeoResult)
    (homeRes : List (ℚ × ℚ)) (dm : String → DMResult)
    (parks0 : List (String × ParkValue)) (dts0 : List (String × DriveInfo)) :
    Except String (List String) :=
  let parks := geocode_parks g parks0
  match geocode_home homeRes with
  | .error e => .error e
  | .ok _ =>
    let dts := get_drive_times dm dts0 parks
    let clusters := cluster_parks dist parks CLUSTER_THRESHOLD_MILES
    .ok (generate_report parks dts clusters)

/-- Concrete example from the spec: park X at a 2-hour drive, park Y at a
6-hour drive, park Z with no cached drive time. -/
def exampleParks : List (String × ParkValue) :=
  [("X", ParkValue.coord 1 1), ("Y", ParkValue.coord 2 2), ("Z", ParkValue.coord 3 3)]

/-- Drive-time cache for the concrete example; Z has no entry. -/
def exampleDriveTimes : List (String × DriveInfo) :=
  [("X", ⟨some 7200, some "2 hours", some 160000, some "160 km", none⟩),
   ("Y", ⟨some 21600, some "6 hours", some 480000, some "480 km", none⟩)]

/-- Clusters for the concrete example: a singleton and a pair containing the
multi-day park Y. -/
def exampleClusters : List (List String) := [["X"], ["Y", "Z"]]

/-! ### Bridge lemmas for the categorizer -/

/-- Kernel-computable form of the categorizer: the float comparisons
`d / 3600 < 3` and `d / 3600 < 5` on an integer `d` amount to integer
comparisons against 10800 and 18000. -/
def categorize_trip_int : Option Int → String
  | none => "Unknown"
  | some d =>
    if d < 10800 then "Day Trip"
    else if d < 18000 then "Weekend Trip"
    else "Multi-day Trip"

theorem categorize_trip_eq_int : categorize_trip = categorize_trip_int := by
  funext o
  cases o with
  | none => rfl
  | some d =>
    show (if (d : ℚ) / 3600 < 3 then "Day Trip"
      else if (d : ℚ) / 3600 < 5 then "Weekend Trip" else "Multi-day Trip") = _
    have h3 : ((d : ℚ) / 3600 < 3) ↔ (d < 10800) := by
      rw [div_lt_iff₀ (by norm_num : (0:ℚ) < 3600)]
      constructor
      · intro h; exact_mod_cast h
      · intro h; exact_mod_cast h
    have h5 : ((d : ℚ) / 3600 < 5) ↔ (d < 18000) := by
      rw [div_lt_iff₀ (by norm_num : (0:ℚ) < 3600)]
      constructor
      · intro h; exact_mod_cast h
      · intro h; exact_mod_cast h
    simp only [categorize_trip_int, h3, h5]

/-! ### C3: trip categorization policy -/

/-- C3: `categorize_trip` returns `Unknown` on a missing duration, `Day Trip`
strictly below 10800 s, `Weekend Trip` from 10800 s up to but excluding
18000 s, and `Multi-day Trip` from 18000 s on; in particular at the boundary
inputs 10799, 10800, 17999, 18000 and `None`. -/
theorem categorize_trip_policy :
    categorize_trip none = "Unknown" ∧
    (∀ d : Int, d < 10800 → categorize_trip (some d) = "Day Trip") ∧
    (∀ d : Int, 10800 ≤ d → d < 18000 → categorize_trip (some d) = "Weekend Trip") ∧
    (∀ d : Int, 18000 ≤ d → categorize_trip (some d) = "Multi-day Trip") ∧
    categorize_trip (some 10799) = "Day Trip" ∧
    categorize_trip (some 10800) = "Weekend Trip" ∧
    categorize_trip (some 17999) = "Weekend Trip" ∧
    categorize_trip (some 18000) = "Multi-day Trip" := by
  rw [categorize_trip_eq_int]
  refine ⟨rfl, ?_, ?_, ?_, by decide, by decide, by decide, by decide⟩
  · intro d h
    simp only [categorize_trip_int, if_pos h]
  · intro d h1 h2
    simp only [categorize_trip_int, if_neg (by omega : ¬ d < 10800), if_pos h2]
  · intro d h
    simp only [categorize_trip_int, if_neg (by omega : ¬ d < 10800),
      if_neg (by omega : ¬ d < 18000)]

/-- Witness for C3: the universally quantified clauses applied at concrete
durations. -/
theorem categorize_trip_policy_witness :
    categorize_trip (some 0) = "Day Trip" ∧
    categorize_trip (some 12000) = "Weekend Trip" ∧
    categorize_trip (some 99999) = "Multi-day Trip" :=
  ⟨categorize_trip_policy.2.1 0 (by decide),
   categorize_trip_policy.2.2.1 12000 (by decide) (by decide),
   categorize_trip_policy.2.2.2.1 99999 (by decide)⟩

/-! ### C9: park type from name -/

/-- C9 counterexample: the name `"XSHPX"` ends with none of the four
designations, so under the claim `get_park_type` would have to return
`"park"`; the code tests substring containment, not a trailing designation,
and returns `"historical"`. -/
theorem get_park_type_counterexample :
    get_park_type "XSHPX" = "historical" ∧
    ¬ ("SHP".data <:+ "XSHPX".data) ∧ ¬ ("SB".data <:+ "XSHPX".data) ∧
    ¬ ("SRA".data <:+ "XSHPX".data) ∧ ¬ ("SNR".data <:+ "XSHPX".data) := by
  decide

/-- C9 amended: `get_park_type` buckets by substring containment of the
designations, tested in the priority order SHP, SB, SRA, SNR, with
`"park"` when none of the four occurs anywhere in the name. -/
theorem get_park_type_spec (name : String) :
    (get_park_type name = "historical" ↔ strContains name "SHP" = true) ∧
    (get_park_type name = "beach" ↔
      (strContains name "SHP" = false ∧ strContains name "SB" = true)) ∧
    (get_park_type name = "recreation" ↔
      (strContains name "SHP" = false ∧ strContains name "SB" = false ∧
       strContains name "SRA" = true)) ∧
    (get_park_type name = "reserve" ↔
      (strContains name "SHP" = false ∧ strContains name "SB" = false ∧
       strContains name "SRA" = false ∧ strContains name "SNR" = true)) ∧
    (get_park_type name = "park" ↔
      (strContains name "SHP" = false ∧ strContains name "SB" = false ∧
       strContains name "SRA" = false ∧ strContains name "SNR" = false)) := by
  unfold get_park_type
  split_ifs with h1 h2 h3 h4 <;> simp_all

/-! ### C1: clustering is a partition of the parks with coordinates -/

theorem scanCluster_snd (dist : ℚ → ℚ → ℚ → ℚ → ℚ) (t : ℚ) (seed : ℚ × ℚ) :
    ∀ (l : List (String × ℚ × ℚ)) (assigned : List String),
      (scanCluster dist t seed l assigned).2 =
        (scanCluster dist t seed l assigned).1.reverse ++ assigned
  | [], assigned => by simp [scanCluster]
  | (n, c) :: rest, assigned => by
    by_cases h : n ∈ assigned
    · simp only [scanCluster, if_pos h]
      exact scanCluster_snd dist t seed rest assigned
    · by_cases h2 : dist seed.1 seed.2 c.1 c.2 ≤ t
      · simp only [scanCluster, if_neg h, if_pos h2]
        have ih := scanCluster_snd dist t seed rest (n :: assigned)
        simp [ih]
      · simp only [scanCluster, if_neg h, if_neg h2]
        exact scanCluster_snd dist t seed rest assigned

theorem scanCluster_members (dist : ℚ → ℚ → ℚ → ℚ → ℚ) (t : ℚ) (seed : ℚ × ℚ) :
    ∀ (l : List (String × ℚ × ℚ)) (assigned : List String) (x : String),
      x ∈ (scanCluster dist t seed l assigned).1 →
        x ∉ assigned ∧ x ∈ l.map Prod.fst
  | [], assigned, x => by simp [scanCluster]
  | (n, c) :: rest, assigned, x => by
    by_cases h : n ∈ assigned
    · simp only [scanCluster, if_pos h]
      intro hx
      have ih := scanCluster_members dist t seed rest assigned x hx
      exact ⟨ih.1, by simp [ih.2]⟩
    · by_cases h2 : dist seed.1 seed.2 c.1 c.2 ≤ t
      · simp only [scanCluster, if_neg h, if_pos h2]
        intro hx
        rcases List.mem_cons.1 hx with rfl | hx'
        · exact ⟨h, by simp⟩
        · have ih := scanCluster_members dist t seed rest (n :: assigned) x hx'
          exact ⟨fun hxa => ih.1 (List.mem_cons_of_mem _ hxa), by simp [ih.2]⟩
      · simp only [scanCluster, if_neg h, if_neg h2]
        intro hx
        have ih := scanCluster_members dist t seed rest assigned x hx
        exact ⟨ih.1, by simp [ih.2]⟩

theorem scanCluster_nodup (dist : ℚ → ℚ → ℚ → ℚ → ℚ) (t : ℚ) (seed : ℚ × ℚ) :
    ∀ (l : List (String × ℚ × ℚ)) (assigned : List String),
      (scanCluster dist t seed l assigned).1.Nodup
  | [], assigned => by simp [scanCluster]
  | (n, c) :: rest, assigned => by
    by_cases h : n ∈ assigned
    · simp only [scanCluster, if_pos h]
      exact scanCluster_nodup dist t seed rest assigned
    · by_cases h2 : dist seed.1 seed.2 c.1 c.2 ≤ t
      · simp only [scanCluster, if_neg h, if_pos h2]
        refine List.nodup_cons.2 ⟨?_, scanCluster_nodup dist t seed rest (n :: assigned)⟩
        intro hmem
        exact (scanCluster_members dist t seed rest (n :: assigned) n hmem).1
          (List.mem_cons_self _ _)
      · simp only [scanCluster, if_neg h, if_neg h2]
        exact scanCluster_nodup dist t seed rest assigned

theorem outerCluster_members (dist : ℚ → ℚ → ℚ → ℚ → ℚ) (t : ℚ)
    (allv : List (String × ℚ × ℚ)) :
    ∀ (rest : List (String × ℚ × ℚ)) (assigned : List String) (x : String),
      x ∈ (outerCluster dist t allv rest assigned).flatten →
        x ∉ assigned ∧ (x ∈ rest.map Prod.fst ∨ x ∈ allv.map Prod.fst)
  | [], assigned, x => by simp [outerCluster]
  | (n, c) :: rest, assigned, x => by
    by_cases h : n ∈ assigned
    · simp only [outerCluster, if_pos h]
      intro hx
      have ih := outerCluster_members dist t allv rest assigned x hx
      refine ⟨ih.1, ?_⟩
      rcases ih.2 with h1 | h2
      · exact Or.inl (by simp [h1])
      · exact Or.inr h2
    · simp only [outerCluster, if_neg h, List.flatten_cons]
      intro hx
      rcases List.mem_append.1 hx with hx1 | hx2
      · rcases List.mem_cons.1 hx1 with rfl | hr
        · exact ⟨h, Or.inl (by simp)⟩
        · have hm := scanCluster_members dist t c allv (n :: assigned) x hr
          exact ⟨fun hxa => hm.1 (List.mem_cons_of_mem _ hxa), Or.inr hm.2⟩
      · have ih := outerCluster_members dist t allv rest _ x hx2
        constructor
        · intro hxa
          apply ih.1
          rw [scanCluster_snd]
          exact List.mem_append_right _ (List.mem_cons_of_mem _ hxa)
        · rcases ih.2 with h1 | h2
          · exact Or.inl (by simp [h1])
          · exact Or.inr h2

theorem outerCluster_nodup (dist : ℚ → ℚ → ℚ → ℚ → ℚ) (t : ℚ)
    (allv : List (String × ℚ × ℚ)) :
    ∀ (rest : List (String × ℚ × ℚ)) (assigned : List String),
      (outerCluster dist t allv rest assigned).flatten.Nodup
  | [], assigned => by simp [outerCluster]
  | (n, c) :: rest, assigned => by
    by_cases h : n ∈ assigned
    · simp only [outerCluster, if_pos h]
      exact outerCluster_nodup dist t allv rest assigned
    · simp only [outerCluster, if_neg h, List.flatten_cons]
      apply List.Nodup.append
      · refine List.nodup_cons.2 ⟨?_, scanCluster_nodup dist t c allv (n :: assigned)⟩
        intro hmem
        exact (scanCluster_members dist t c allv (n :: assigned) n hmem).1
          (List.mem_cons_self _ _)
      · exact outerCluster_nodup dist t allv rest _
      · intro a ha hb
        have hm := outerCluster_members dist t allv rest _ a hb
        apply hm.1
        rw [scanCluster_snd]
        rcases List.mem_cons.1 ha with rfl | ha'
        · exact List.mem_append_right _ (List.mem_cons_self _ _)
        · exact List.mem_append_left _ (List.mem_reverse.2 ha')

theorem outerCluster_covers (dist : ℚ → ℚ → ℚ → ℚ → ℚ) (t : ℚ)
    (allv : List (String × ℚ × ℚ)) :
    ∀ (rest : List (String × ℚ × ℚ)) (assigned : List String) (x : String),
      x ∈ rest.map Prod.fst →
        x ∈ assigned ∨ x ∈ (outerCluster dist t allv rest assigned).flatten
  | [], assigned, x => by simp
  | (n, c) :: rest, assigned, x => by
    intro hx
    by_cases h : n ∈ assigned
    · simp only [outerCluster, if_pos h]
      rcases List.mem_cons.1 hx with rfl | hx'
      · exact Or.inl h
      · exact outerCluster_covers dist t allv rest assigned x hx'
    · simp only [outerCluster, if_neg h, List.flatten_cons]
      rcases List.mem_cons.1 hx with rfl | hx'
      · exact Or.inr (List.mem_append_left _ (List.mem_cons_self _ _))
      · rcases outerCluster_covers dist t allv rest
            (scanCluster dist t c allv (n :: assigned)).2 x hx' with hin | hout
        · rw [scanCluster_snd] at hin
          rcases List.mem_append.1 hin with h1 | h2
          · exact Or.inr (List.mem_append_left _
              (List.mem_cons_of_mem _ (List.mem_reverse.1 h1)))
          · rcases List.mem_cons.1 h2 with rfl | h3
            · exact Or.inr (List.mem_append_left _ (List.mem_cons_self _ _))
            · exact Or.inl h3
        · exact Or.inr (List.mem_append_right _ hout)

theorem assoc_value_unique {α β : Type} :
    ∀ (l : List (α × β)), (l.map Prod.fst).Nodup →
      ∀ {n : α} {v w : β}, (n, v) ∈ l → (n, w) ∈ l → v = w
  | [], _, _, _, _, hv, _ => absurd hv (List.not_mem_nil _)
  | (m, u) :: rest, hnd, n, v, w, hv, hw => by
    rw [List.map_cons, List.nodup_cons] at hnd
    rcases List.mem_cons.1 hv with hv1 | hv2 <;> rcases List.mem_cons.1 hw with hw1 | hw2
    · injection hv1 with h1 h2
      injection hw1 with h3 h4
      rw [h2, h4]
    · exfalso
      injection hv1 with h1 h2
      apply hnd.1
      rw [← h1]
      exact List.mem_map.2 ⟨(n, w), hw2, rfl⟩
    · exfalso
      injection hw1 with h3 h4
      apply hnd.1
      rw [← h3]
      exact List.mem_map.2 ⟨(n, v), hv2, rfl⟩
    · exact assoc_value_unique rest hnd.2 hv2 hw2

theorem mem_valid_parks_keys {parks : List (String × ParkValue)} {n : String} :
    n ∈ (valid_parks parks).map Prod.fst ↔
      ∃ la ln, (n, ParkValue.coord la ln) ∈ parks := by
  constructor
  · intro h
    rcases List.mem_map.1 h with ⟨⟨m, la, ln⟩, hm, rfl⟩
    rcases List.mem_filterMap.1 hm with ⟨⟨m', v⟩, hmem, heq⟩
    cases v with
    | pending => simp [valid_parks] at heq
    | coord la' ln' =>
      simp only [Option.some.injEq, Prod.mk.injEq] at heq
      refine ⟨la', ln', ?_⟩
      show (m, ParkValue.coord la' ln') ∈ parks
      rw [← heq.1]
      exact hmem
    | geoFail msg => simp at heq
  · rintro ⟨la, ln, hmem⟩
    apply List.mem_map.2
    refine ⟨(n, la, ln), List.mem_filterMap.2 ⟨(n, ParkValue.coord la ln), hmem, rfl⟩, rfl⟩

theorem cluster_parks_count_of_coord (dist : ℚ → ℚ → ℚ → ℚ → ℚ) (t : ℚ)
    {parks : List (String × ParkValue)} {n : String} {la ln : ℚ}
    (hmem : (n, ParkValue.coord la ln) ∈ parks) :
    (cluster_parks dist parks t).flatten.count n = 1 := by
  have hkey : n ∈ (valid_parks parks).map Prod.fst :=
    mem_valid_parks_keys.2 ⟨la, ln, hmem⟩
  rcases outerCluster_covers dist t (valid_parks parks) (valid_parks parks) [] n hkey with
    habs | hin
  · exact absurd habs (List.not_mem_nil _)
  · exact List.count_eq_one_of_mem
      (outerCluster_nodup dist t (valid_parks parks) (valid_parks parks) []) hin

theorem cluster_parks_not_mem_of_unresolved (dist : ℚ → ℚ → ℚ → ℚ → ℚ) (t : ℚ)
    {parks : List (String × ParkValue)} {n : String} {v : ParkValue}
    (hnd : (parks.map Prod.fst).Nodup) (hmem : (n, v) ∈ parks)
    (hnc : hasCoord v = false) : n ∉ (cluster_parks dist parks t).flatten := by
  intro hin
  have hm := outerCluster_members dist t (valid_parks parks) (valid_parks parks) [] n hin
  have hkey : n ∈ (valid_parks parks).map Prod.fst := by
    rcases hm.2 with h1 | h1 <;> exact h1
  rcases mem_valid_parks_keys.1 hkey with ⟨la, ln, hmem2⟩
  have heq := assoc_value_unique parks hnd hmem hmem2
  rw [heq] at hnc
  simp [hasCoord] at hnc

/-- C1: for every parks mapping (distinct keys, as in a Python dict) and any
distance function, `cluster_parks` assigns each park that has a resolved
coordinate to exactly one cluster — it occurs exactly once in the
concatenation of all clusters — and a park without a resolved coordinate
(value not a coordinate record, or null latitude) occurs in no cluster. -/
theorem cluster_parks_partition (dist : ℚ → ℚ → ℚ → ℚ → ℚ) (t : ℚ)
    (parks : List (String × ParkValue)) (hnd : (parks.map Prod.fst).Nodup) :
    (∀ n la ln, (n, ParkValue.coord la ln) ∈ parks →
        (cluster_parks dist parks t).flatten.count n = 1) ∧
    (∀ n v, (n, v) ∈ parks → hasCoord v = false →
        n ∉ (cluster_parks dist parks t).flatten) :=
  ⟨fun _ _ _ hmem => cluster_parks_count_of_coord dist t hmem,
   fun _ _ hmem hnc => cluster_parks_not_mem_of_unresolved dist t hnd hmem hnc⟩

/-- Witness for C1 at a concrete mapping: park A has a coordinate and is
clustered exactly once; park E failed geocoding and is in no cluster. -/
theorem cluster_parks_partition_witness :
    ((cluster_parks (fun _ _ _ _ => 0)
        [("A", ParkValue.coord 0 0), ("E", ParkValue.geoFail "Not found")] 30).flatten.count
          "A" = 1) ∧
    "E" ∉ (cluster_parks (fun _ _ _ _ => 0)
        [("A", ParkValue.coord 0 0), ("E", ParkValue.geoFail "Not found")] 30).flatten := by
  constructor
  · exact (cluster_parks_partition (fun _ _ _ _ => 0) 30 _ (by decide)).1 "A" 0 0 (by decide)
  · exact (cluster_parks_partition (fun _ _ _ _ => 0) 30 _ (by decide)).2 "E"
      (ParkValue.geoFail "Not found") (by decide) rfl

/-! ### C2: clustering is seed-order dependent -/

/-- C2: three parks whose pairwise distances are d(A,B) = 20, d(B,C) = 20,
d(A,C) = 40 miles, clustered with threshold 30 in input order A, B, C, yield
exactly the clusters [A, B] and [C]: C is within range of member B but is
compared against the seed A only, so it opens its own cluster. -/
theorem cluster_parks_seed_order (dist : ℚ → ℚ → ℚ → ℚ → ℚ)
    (A B C : String) (aLat aLng bLat bLng cLat cLng : ℚ)
    (hAB : A ≠ B) (hAC : A ≠ C) (hBC : B ≠ C)
    (dAB : dist aLat aLng bLat bLng = 20)
    (dBC : dist bLat bLng cLat cLng = 20)
    (dAC : dist aLat aLng cLat cLng = 40) :
    cluster_parks dist
      [(A, ParkValue.coord aLat aLng), (B, ParkValue.coord bLat bLng),
       (C, ParkValue.coord cLat cLng)] 30 = [[A, B], [C]] := by
  norm_num [cluster_parks, valid_parks, outerCluster, scanCluster, List.filterMap_cons,
    dAB, dBC, dAC, hAB, hAC, hBC, Ne.symm hAB, Ne.symm hAC, Ne.symm hBC,
    List.mem_cons, List.mem_singleton, List.not_mem_nil]

/-- Witness for C2 at concrete names and a concrete distance function. -/
theorem cluster_parks_seed_order_witness :
    cluster_parks (fun la _ lb _ => 20 * |lb - la|)
      [("A", ParkValue.coord 0 0), ("B", ParkValue.coord 1 0),
       ("C", ParkValue.coord 2 0)] 30 = [["A", "B"], ["C"]] :=
  cluster_parks_seed_order (fun la _ lb _ => 20 * |lb - la|) "A" "B" "C" 0 0 1 0 2 0
    (by decide) (by decide) (by decide)
    (by norm_num) (by norm_num) (by norm_num)

/-! ### C4: report sorting by drive time -/

theorem sorted_parks_filter_key (parks : List (String × ParkValue))
    (dts : List (String × DriveInfo)) (k : WithTop Int) :
    (sorted_parks parks dts).filter (fun x => decide (x.2.1 = k)) =
      (parkTuples parks dts).filter (fun x => decide (x.2.1 = k)) := by
  set l := parkTuples parks dts with hl
  have hp : (l.filter (fun x => decide (x.2.1 = k))).Pairwise durLE := by
    apply List.pairwise_of_forall_mem_list
    intro a ha b hb
    have ha2 : a.2.1 = k := of_decide_eq_true (List.mem_filter.1 ha).2
    have hb2 : b.2.1 = k := of_decide_eq_true (List.mem_filter.1 hb).2
    show a.2.1 ≤ b.2.1
    rw [ha2, hb2]
  have hsub : List.Sublist (l.filter (fun x => decide (x.2.1 = k)))
      (List.insertionSort durLE l) :=
    List.sublist_insertionSort hp (List.filter_sublist l)
  have hsub2 := hsub.filter (fun x => decide (x.2.1 = k))
  simp only [List.filter_filter, Bool.and_self] at hsub2
  have hperm : List.Perm ((List.insertionSort durLE l).filter (fun x => decide (x.2.1 = k)))
      (l.filter (fun x => decide (x.2.1 = k))) :=
    (List.perm_insertionSort durLE l).filter _
  exact (hsub2.eq_of_length hperm.length_eq.symm).symm

/-- C4: the report's sort orders the park tuples by drive-time duration
ascending (missing duration treated as the top element, hence after every
park with a duration), it is a permutation of the input tuples, and it is
stable: for every key value, the tuples carrying that key appear in their
input relative order. -/
theorem generate_report_sort_spec (parks : List (String × ParkValue))
    (dts : List (String × DriveInfo)) :
    ((sorted_parks parks dts).Pairwise durLE) ∧
    (List.Perm (sorted_parks parks dts) (parkTuples parks dts)) ∧
    ((sorted_parks parks dts).Pairwise (fun x y => x.2.1 = ⊤ → y.2.1 = ⊤)) ∧
    (∀ k : WithTop Int, (sorted_parks parks dts).filter (fun x => decide (x.2.1 = k)) =
        (parkTuples parks dts).filter (fun x => decide (x.2.1 = k))) := by
  refine ⟨List.sorted_insertionSort durLE (parkTuples parks dts),
    List.perm_insertionSort durLE _, ?_, fun k => sorted_parks_filter_key parks dts k⟩
  apply List.Pairwise.imp ?_ (List.sorted_insertionSort durLE (parkTuples parks dts))
  intro x y hxy hx
  exact top_le_iff.1 (hx ▸ hxy)

/-! ### C5: summary and detailed sections -/

theorem filterMap_if_eq_filter_map {α β : Type} (l : List α) (p : α → Prop)
    [DecidablePred p] (f : α → β) :
    (l.filterMap (fun c => if p c then some (f c) else none)) =
      (l.filter (fun c => decide (p c))).map f := by
  induction l with
  | nil => rfl
  | cons a l ih => by_cases h : p a <;> simp [h, ih]

theorem isMultiDayCluster_int (dts : List (String × DriveInfo)) :
    isMultiDayCluster dts = fun c =>
      decide (1 < c.length) && c.any (fun p =>
        decide (categorize_trip_int (infoFor dts p).duration_seconds = "Multi-day Trip")) := by
  funext c
  rw [isMultiDayCluster, categorize_trip_eq_int]

theorem mem_categoryMembers {parks : List (String × ParkValue)}
    {dts : List (String × DriveInfo)} {n : String} {i : DriveInfo} {c : String}
    (h : (n, i) ∈ categoryMembers (sorted_parks parks dts) c) :
    i = infoFor dts n ∧ categorize_trip i.duration_seconds = c := by
  rcases List.mem_map.1 h with ⟨x, hx, heq⟩
  have hpred := (List.mem_filter.1 hx).2
  have hmem := (List.mem_filter.1 hx).1
  have hx2 : x ∈ parkTuples parks dts :=
    (List.perm_insertionSort durLE (parkTuples parks dts)).mem_iff.1 hmem
  rcases List.mem_map.1 hx2 with ⟨p, hpmem, hp⟩
  injection heq with h1 h2
  subst h1
  subst h2
  constructor
  · rw [← hp]
  · exact of_decide_eq_true hpred

/-- C5: the summary lists exactly the categories with at least one member, in
the fixed order Day Trip, Weekend Trip, Multi-day Trip, Unknown; membership in
a category list means the park is categorized into exactly that category, so a
park categorized Unknown is in none of the three detailed categories.  On the
spec's concrete example (X at 2 h, Y at 6 h, Z without duration) the summary
reads Day Trip 1, Multi-day Trip 1, Unknown 1, and the line for Z occurs in no
detailed section nor anywhere in the report. -/
theorem report_summary_detail_spec (parks : List (String × ParkValue))
    (dts : List (String × DriveInfo)) :
    (summarySection (categoryMembers (sorted_parks parks dts)) =
      (catNames.filter
          (fun c => decide ((categoryMembers (sorted_parks parks dts) c).length > 0))).map
        (fun c => summaryLine c (categoryMembers (sorted_parks parks dts) c).length)) ∧
    (∀ n i c, (n, i) ∈ categoryMembers (sorted_parks parks dts) c →
        categorize_trip (infoFor dts n).duration_seconds = c) ∧
    (∀ n i c, categorize_trip (infoFor dts n).duration_seconds = "Unknown" →
        c ∈ detailCats → (n, i) ∉ categoryMembers (sorted_parks parks dts) c) ∧
    (summarySection (categoryMembers (sorted_parks exampleParks exampleDriveTimes)) =
      [summaryLine "Day Trip" 1, summaryLine "Multi-day Trip" 1, summaryLine "Unknown" 1]) ∧
    ("  Z" ∉ detailSection (categoryMembers (sorted_parks exampleParks exampleDriveTimes))) ∧
    ((strUpper "Weekend Trip" ++ "S (sorted by drive time)") ∉
      detailSection (categoryMembers (sorted_parks exampleParks exampleDriveTimes))) ∧
    ("  Z" ∉ generate_report exampleParks exampleDriveTimes exampleClusters) := by
  refine ⟨?_, ?_, ?_, ?_, ?_, ?_, ?_⟩
  · simp only [summarySection]
    exact filterMap_if_eq_filter_map catNames _ _
  · intro n i c hmem
    obtain ⟨h1, h2⟩ := mem_categoryMembers hmem
    rw [h1] at h2
    exact h2
  · intro n i c hU hc hmem
    obtain ⟨h1, h2⟩ := mem_categoryMembers hmem
    rw [h1] at h2
    have hcu : "Unknown" = c := hU.symm.trans h2
    simp only [detailCats, List.mem_cons, List.mem_singleton, List.not_mem_nil,
      or_false] at hc
    rcases hc with rfl | rfl | rfl <;> exact absurd hcu (by decide)
  · simp only [summarySection, categoryMembers, sorted_parks, parkTuples, infoFor,
      sortKeyOf, categorize_trip_eq_int]
    decide
  · simp only [detailSection, categoryMembers, sorted_parks, parkTuples, infoFor,
      sortKeyOf, entryLines, categorize_trip_eq_int]
    decide
  · simp only [detailSection, categoryMembers, sorted_parks, parkTuples, infoFor,
      sortKeyOf, entryLines, strUpper, upChar, categorize_trip_eq_int]
    decide
  · simp only [generate_report, summarySection, detailSection, clusterSection,
      categoryMembers, sorted_parks, parkTuples, multi_day_clusters, isMultiDayCluster_int,
      clusterLines, entryLines, infoFor, sortKeyOf, categorize_trip_eq_int]
    decide

/-- Witness for C5: the membership clause applied to park X of the concrete
example, which the code categorizes Day Trip. -/
theorem report_summary_detail_spec_witness :
    categorize_trip (infoFor exampleDriveTimes "X").duration_seconds = "Day Trip" :=
  (report_summary_detail_spec exampleParks exampleDriveTimes).2.1 "X"
    (infoFor exampleDriveTimes "X") "Day Trip"
    (by simp only [categoryMembers, sorted_parks, parkTuples, infoFor, sortKeyOf,
          categorize_trip_eq_int]
        decide)

/-! ### C6: suggested multi-day clusters -/

theorem getElem?_enumFrom_mem {α : Type} :
    ∀ (l : List α) (k j : Nat) (c : α), l[j]? = some c → (k + j, c) ∈ List.enumFrom k l
  | [], _, j, c => by simp
  | a :: rest, k, 0, c => by
    intro h
    simp only [List.getElem?_cons_zero, Option.some.injEq] at h
    subst h
    simp [List.enumFrom]
  | a :: rest, k, j + 1, c => by
    intro h
    simp only [List.getElem?_cons_succ] at h
    have ih := getElem?_enumFrom_mem rest (k + 1) j c h
    have hkj : k + (j + 1) = (k + 1) + j := by omega
    rw [hkj]
    exact List.mem_cons_of_mem _ ih

/-- C6: the suggested-clusters list keeps exactly the input clusters with more
than one member and at least one member categorized Multi-day Trip from its
cached duration, in original order (a sublist of the input); the cluster at
position j (0-based) is printed with number j + 1, and every one of its
members is printed with its duration text or N/A. -/
theorem report_clusters_spec (dts : List (String × DriveInfo))
    (clusters : List (List String)) :
    (∀ c, c ∈ multi_day_clusters dts clusters ↔
        (c ∈ clusters ∧ 1 < c.length ∧ ∃ p, p ∈ c ∧
          categorize_trip (infoFor dts p).duration_seconds = "Multi-day Trip")) ∧
    (List.Sublist (multi_day_clusters dts clusters) clusters) ∧
    (∀ j c, (multi_day_clusters dts clusters)[j]? = some c →
        ("\n  Cluster " ++ toString (j + 1) ++ ": (" ++ toString c.length ++ " parks)") ∈
          clusterSection dts clusters ∧
        ∀ p, p ∈ c →
          ("    - " ++ p ++ " (" ++ (infoFor dts p).duration_text.getD "N/A" ++ ")") ∈
            clusterSection dts clusters) := by
  refine ⟨?_, List.filter_sublist clusters, ?_⟩
  · intro c
    simp [multi_day_clusters, isMultiDayCluster, List.mem_filter, List.any_eq_true,
      and_assoc]
  · intro j c hj
    have hmem : (1 + j, c) ∈ List.enumFrom 1 (multi_day_clusters dts clusters) :=
      getElem?_enumFrom_mem _ 1 j c hj
    have hne : ¬ ((multi_day_clusters dts clusters).isEmpty = true) := by
      rcases hmm : multi_day_clusters dts clusters with _ | ⟨d, rest⟩
      · rw [hmm] at hj
        simp at hj
      · simp
    have hsec : clusterSection dts clusters =
        [dash60, "SUGGESTED MULTI-DAY TRIP CLUSTERS",
          "(Parks within 30 miles of each other)", dash60] ++
        (List.enumFrom 1 (multi_day_clusters dts clusters)).flatMap
          (fun p => clusterLines dts p.1 p.2) := by
      rw [clusterSection, if_neg hne]
    rw [hsec]
    constructor
    · apply List.mem_append_right
      apply List.mem_flatMap.2
      refine ⟨(1 + j, c), hmem, ?_⟩
      show _ ∈ clusterLines dts (1 + j) c
      rw [Nat.add_comm 1 j]
      exact List.mem_cons_self _ _
    · intro p hp
      apply List.mem_append_right
      apply List.mem_flatMap.2
      refine ⟨(1 + j, c), hmem, ?_⟩
      apply List.mem_cons_of_mem
      exact List.mem_map_of_mem _ hp

/-- Witness for C6: in the concrete example the pair cluster containing the
multi-day park Y is printed as cluster number 1, listing member Z with N/A. -/
theorem report_clusters_spec_witness :
    ("\n  Cluster 1: (2 parks)" ∈ clusterSection exampleDriveTimes exampleClusters) ∧
    ("    - Z (N/A)" ∈ clusterSection exampleDriveTimes exampleClusters) := by
  have h := (report_clusters_spec exampleDriveTimes exampleClusters).2.2 0 ["Y", "Z"]
    (by simp only [multi_day_clusters, isMultiDayCluster_int, infoFor]
        decide)
  exact ⟨h.1, h.2 "Z" (by decide)⟩

/-! ### C7: unresolved parks stay out of clustering and non-Unknown categories -/

theorem lookup_append_single_ne {β : Type} (n m : String) (x : β) (h : n ≠ m) :
    ∀ (l : List (String × β)), (l ++ [(m, x)]).lookup n = l.lookup n
  | [] => by
    simp only [List.nil_append, List.lookup]
    rw [beq_eq_false_iff_ne.2 h]
  | (k, v) :: rest => by
    simp only [List.cons_append, List.lookup]
    cases hk : (n == k)
    · exact lookup_append_single_ne n m x h rest
    · rfl

theorem get_drive_times_cons (dm : String → DMResult) (dts : List (String × DriveInfo))
    (m : String) (w : ParkValue) (rest : List (String × ParkValue)) :
    get_drive_times dm dts ((m, w) :: rest) =
      get_drive_times dm
        (if (dts.lookup m).isSome then dts
         else if hasCoord w = false then dts
         else dts ++ [(m,
           match dm m with
           | .ok ds dt dsm dst => ⟨some ds, some dt, some dsm, some dst, none⟩
           | .notOK => ⟨none, none, none, none, some "Route not found"⟩
           | .exn msg => ⟨none, none, none, none, some msg⟩)]) rest := rfl

theorem get_drive_times_lookup_none (dm : String → DMResult) (n : String) :
    ∀ (parks : List (String × ParkValue)) (dts : List (String × DriveInfo)),
      (∀ w, (n, w) ∈ parks → hasCoord w = false) →
      dts.lookup n = none → (get_drive_times dm dts parks).lookup n = none
  | [], _, _, h0 => h0
  | (m, w) :: rest, dts, hall, h0 => by
    rw [get_drive_times_cons]
    refine get_drive_times_lookup_none dm n rest _
      (fun w2 hw2 => hall w2 (List.mem_cons_of_mem _ hw2)) ?_
    by_cases h1 : (dts.lookup m).isSome
    · rw [if_pos h1]
      exact h0
    · rw [if_neg h1]
      by_cases h2 : hasCoord w = false
      · rw [if_pos h2]
        exact h0
      · rw [if_neg h2]
        have hmn : n ≠ m := by
          intro he
          exact h2 (hall w (by rw [he]; exact List.mem_cons_self _ _))
        rw [lookup_append_single_ne n m _ hmn]
        exact h0

/-- C7: a park whose value has no resolved coordinate and that has no entry in
the pre-existing drive-time cache (the program never creates one for it, per
the skip at src/main.py:112-113) is in no cluster, acquires no drive-time
entry, is categorized Unknown in the report, and belongs to none of the three
detailed categories. -/
theorem unresolved_park_invariant (dist : ℚ → ℚ → ℚ → ℚ → ℚ) (t : ℚ)
    (dm : String → DMResult) (dts0 : List (String × DriveInfo))
    (parks : List (String × ParkValue)) (n : String) (v : ParkValue)
    (hmem : (n, v) ∈ parks) (hnc : hasCoord v = false)
    (hnd : (parks.map Prod.fst).Nodup) (h0 : dts0.lookup n = none) :
    (n ∉ (cluster_parks dist parks t).flatten) ∧
    ((get_drive_times dm dts0 parks).lookup n = none) ∧
    (categorize_trip (infoFor (get_drive_times dm dts0 parks) n).duration_seconds =
      "Unknown") ∧
    (∀ i c, c ∈ detailCats →
        (n, i) ∉ categoryMembers (sorted_parks parks (get_drive_times dm dts0 parks)) c) := by
  have hall : ∀ w, (n, w) ∈ parks → hasCoord w = false := by
    intro w hw
    rw [assoc_value_unique parks hnd hw hmem]
    exact hnc
  have hlook : (get_drive_times dm dts0 parks).lookup n = none :=
    get_drive_times_lookup_none dm n parks dts0 hall h0
  have hunk : categorize_trip
      (infoFor (get_drive_times dm dts0 parks) n).duration_seconds = "Unknown" := by
    rw [infoFor, hlook]
    rfl
  refine ⟨cluster_parks_not_mem_of_unresolved dist t hnd hmem hnc, hlook, hunk, ?_⟩
  intro i c hc hmemc
  obtain ⟨h1, h2⟩ := mem_categoryMembers hmemc
  rw [h1] at h2
  have hcu : "Unknown" = c := hunk.symm.trans h2
  simp only [detailCats, List.mem_cons, List.mem_singleton, List.not_mem_nil,
    or_false] at hc
  rcases hc with rfl | rfl | rfl <;> exact absurd hcu (by decide)

/-- Witness for C7: a park whose geocoding failed, with an empty initial
drive-time cache. -/
theorem unresolved_park_invariant_witness :
    ("E" ∉ (cluster_parks (fun _ _ _ _ => 0)
        [("E", ParkValue.geoFail "Not found")] 30).flatten) ∧
    (categorize_trip (infoFor (get_drive_times (fun _ => DMResult.notOK) []
        [("E", ParkValue.geoFail "Not found")]) "E").duration_seconds = "Unknown") := by
  have h := unresolved_park_invariant (fun _ _ _ _ => 0) 30 (fun _ => DMResult.notOK) []
    [("E", ParkValue.geoFail "Not found")] "E" (ParkValue.geoFail "Not found")
    (by decide) rfl (by decide) rfl
  exact ⟨h.1, h.2.2.1⟩

/-! ### C8: home geocoding aborts the run; park geocoding failures do not -/

/-- C8: `geocode_home` raises exactly when the geocoder returns no result, and
in that case `main_run` aborts with that error and produces no report; a
per-park geocoding failure (empty result or exception) is recorded in the
parks mapping as a `{lat: null, lng: null, error}` record without raising,
and whenever the home geocoder returns a result, the run completes and
produces a report. -/
theorem geocode_failure_spec (dist : ℚ → ℚ → ℚ → ℚ → ℚ) (g : String → GeoResult)
    (dm : String → DMResult) (parks0 : List (String × ParkValue))
    (dts0 : List (String × DriveInfo)) :
    (∀ homeRes, (∃ e, geocode_home homeRes = Except.error e) ↔ homeRes = []) ∧
    (main_run dist g [] dm parks0 dts0 =
      Except.error ("Could not geocode home address: " ++ MY_ADDRESS)) ∧
    (∀ n, (n, ParkValue.pending) ∈ parks0 → g n = GeoResult.notFound →
        (n, ParkValue.geoFail "Not found") ∈ geocode_parks g parks0) ∧
    (∀ n msg, (n, ParkValue.pending) ∈ parks0 → g n = GeoResult.exn msg →
        (n, ParkValue.geoFail msg) ∈ geocode_parks g parks0) ∧
    (∀ homeRes, homeRes ≠ [] →
        ∃ out, main_run dist g homeRes dm parks0 dts0 = Except.ok out) := by
  refine ⟨?_, rfl, ?_, ?_, ?_⟩
  · intro homeRes
    cases homeRes with
    | nil => exact ⟨fun _ => rfl, fun _ => ⟨_, rfl⟩⟩
    | cons l rest =>
      constructor
      · rintro ⟨e, he⟩
        simp [geocode_home] at he
      · intro h
        exact absurd h (List.cons_ne_nil _ _)
  · intro n hmem hg
    refine List.mem_map.2 ⟨(n, ParkValue.pending), hmem, ?_⟩
    simp [hg]
  · intro n msg hmem hg
    refine List.mem_map.2 ⟨(n, ParkValue.pending), hmem, ?_⟩
    simp [hg]
  · intro homeRes hne
    cases homeRes with
    | nil => exact absurd rfl hne
    | cons l rest => exact ⟨_, rfl⟩

/-- Witness for C8: a park whose geocoding finds nothing gets the error
record, and the run with a non-empty home result still succeeds. -/
theorem geocode_failure_spec_witness :
    (("P", ParkValue.geoFail "Not found") ∈
      geocode_parks (fun _ => GeoResult.notFound) [("P", ParkValue.pending)]) ∧
    (∃ out, main_run (fun _ _ _ _ => 0) (fun _ => GeoResult.notFound) [(0, 0)]
        (fun _ => DMResult.notOK) [("P", ParkValue.pending)] [] = Except.ok out) := by
  have h := geocode_failure_spec (fun _ _ _ _ => 0) (fun _ => GeoResult.notFound)
    (fun _ => DMResult.notOK) [("P", ParkValue.pending)] []
  exact ⟨h.2.2.1 "P" (by decide) rfl, h.2.2.2.2 [(0, 0)] (by decide)⟩

/-! ### C10: missing and extraneous drive-time entries -/

theorem any_congr {α : Type} {f g : α → Bool} :
    ∀ (l : List α), (∀ a, a ∈ l → f a = g a) → l.any f = l.any g
  | [], _ => rfl
  | a :: l, h => by
    simp only [List.any_cons]
    rw [h a (List.mem_cons_self _ _),
      any_congr l (fun b hb => h b (List.mem_cons_of_mem _ hb))]

theorem snd_mem_of_mem_enumFrom {α : Type} :
    ∀ (l : List α) (k : Nat) (p : Nat × α), p ∈ List.enumFrom k l → p.2 ∈ l
  | [], _, p => by simp
  | a :: rest, k, p => by
    intro h
    rcases List.mem_cons.1 h with rfl | h2
    · exact List.mem_cons_self _ _
    · exact List.mem_cons_of_mem _ (snd_mem_of_mem_enumFrom rest (k + 1) p h2)

theorem generate_report_congr (parks : List (String × ParkValue))
    (dts dts2 : List (String × DriveInfo)) (clusters : List (List String))
    (h1 : ∀ m, m ∈ parks.map Prod.fst → dts.lookup m = dts2.lookup m)
    (h2 : ∀ m, m ∈ clusters.flatten → dts.lookup m = dts2.lookup m) :
    generate_report parks dts clusters = generate_report parks dts2 clusters := by
  have hinfo : ∀ m, m ∈ parks.map Prod.fst → infoFor dts m = infoFor dts2 m := by
    intro m hm
    rw [infoFor, infoFor, h1 m hm]
  have hinfo2 : ∀ m, m ∈ clusters.flatten → infoFor dts m = infoFor dts2 m := by
    intro m hm
    rw [infoFor, infoFor, h2 m hm]
  have hpt : parkTuples parks dts = parkTuples parks dts2 := by
    apply List.map_congr_left
    intro p hp
    rw [hinfo p.1 (List.mem_map.2 ⟨p, hp, rfl⟩)]
  have hmdc : multi_day_clusters dts clusters = multi_day_clusters dts2 clusters := by
    apply List.filter_congr
    intro c hc
    rw [isMultiDayCluster, isMultiDayCluster]
    congr 1
    apply any_congr
    intro p hp
    rw [hinfo2 p (List.mem_flatten.2 ⟨c, hc, hp⟩)]
  have hlines : (List.enumFrom 1 (multi_day_clusters dts2 clusters)).flatMap
      (fun p => clusterLines dts p.1 p.2) =
      (List.enumFrom 1 (multi_day_clusters dts2 clusters)).flatMap
      (fun p => clusterLines dts2 p.1 p.2) := by
    rw [List.flatMap_def, List.flatMap_def]
    congr 1
    apply List.map_congr_left
    intro pr hpr
    have hc : pr.2 ∈ multi_day_clusters dts2 clusters :=
      snd_mem_of_mem_enumFrom _ _ _ hpr
    have hcin : pr.2 ∈ clusters := List.mem_of_mem_filter hc
    rw [clusterLines, clusterLines]
    congr 1
    apply List.map_congr_left
    intro p hp
    rw [hinfo2 p (List.mem_flatten.2 ⟨pr.2, hcin, hp⟩)]
  have hcs : clusterSection dts clusters = clusterSection dts2 clusters := by
    rw [clusterSection, clusterSection, hmdc, hlines]
  rw [generate_report, generate_report, sorted_parks, sorted_parks, hpt, hcs]

/-- C10: a park with no entry in the drive-times mapping behaves exactly like
one whose entry lacks `duration_seconds`: its lookup yields the empty record,
its sort key is the top element (sorts last), its category is Unknown, and its
duration and distance render as N/A; conversely the report depends on the
drive-times mapping only at the parks-mapping keys (and cluster members), the
total line counts the parks mapping, and every sorted entry is a
parks-mapping key. -/
theorem report_missing_and_extra_entries (parks : List (String × ParkValue))
    (dts dts2 : List (String × DriveInfo)) (clusters : List (List String)) (n : String)
    (hmiss : dts.lookup n = none) :
    (infoFor dts n = emptyInfo) ∧
    (sortKeyOf (infoFor dts n) = ⊤) ∧
    (categorize_trip (infoFor dts n).duration_seconds = "Unknown") ∧
    ((infoFor dts n).duration_text.getD "N/A" = "N/A" ∧
      (infoFor dts n).distance_text.getD "N/A" = "N/A") ∧
    (∀ i : DriveInfo, i.duration_seconds = none →
        sortKeyOf i = ⊤ ∧ categorize_trip i.duration_seconds = "Unknown") ∧
    ((∀ m, m ∈ parks.map Prod.fst → dts.lookup m = dts2.lookup m) →
      (∀ m, m ∈ clusters.flatten → dts.lookup m = dts2.lookup m) →
      generate_report parks dts clusters = generate_report parks dts2 clusters) ∧
    (("Total parks: " ++ toString parks.length) ∈ generate_report parks dts clusters) ∧
    (∀ x, x ∈ sorted_parks parks dts → x.1 ∈ parks.map Prod.fst) := by
  have hempty : infoFor dts n = emptyInfo := by
    rw [infoFor, hmiss]
    rfl
  refine ⟨hempty, by rw [hempty]; rfl, by rw [hempty]; rfl,
    ⟨by rw [hempty]; rfl, by rw [hempty]; rfl⟩, ?_,
    generate_report_congr parks dts dts2 clusters, ?_, ?_⟩
  · intro i h
    constructor
    · rw [sortKeyOf, h]
    · rw [h]
      rfl
  · simp [generate_report]
  · intro x hx
    have hx2 : x ∈ parkTuples parks dts :=
      (List.perm_insertionSort durLE (parkTuples parks dts)).mem_iff.1 hx
    rcases List.mem_map.1 hx2 with ⟨p, hp, hpe⟩
    rw [← hpe]
    exact List.mem_map.2 ⟨p, hp, rfl⟩

/-- Witness for C10: park W has no drive-time entry; an unrelated ghost entry
in the drive-times mapping leaves the report unchanged. -/
theorem report_missing_and_extra_entries_witness :
    (infoFor [] "W" = emptyInfo) ∧
    (generate_report [("W", ParkValue.coord 0 0)] [] [] =
      generate_report [("W", ParkValue.coord 0 0)]
        [("ghost", ⟨some 60, some "1 min", some 100, some "0.1 km", none⟩)] []) := by
  have h := report_missing_and_extra_entries [("W", ParkValue.coord 0 0)] []
    [("ghost", ⟨some 60, some "1 min", some 100, some "0.1 km", none⟩)] [] "W" rfl
  refine ⟨h.1, h.2.2.2.2.2.1 ?_ ?_⟩
  · intro m hm
    have hm2 : m = "W" := by simpa using hm
    subst hm2
    rfl
  · intro m hm
    simp at hm
